import Mathlib

/-
Verification of the sliding-window telemetry aggregation and actuator-control
decision engine of the IIOT_Team_Project_Group6 repository.

The definitions below are a shallow embedding of:
  * app/mqtt_simple.py   — per-device bounded history (deque with maxlen),
    source-id inference, message ingestion, and time-windowed averaging;
  * pages/04_usb_control.py — sliding-window sort, weighted blending of the
    two sensors, threshold/override control decision, manual buttons, and the
    sidebar threshold inputs.
Numeric values (floats in Python) are modelled as rationals.
-/

namespace IIoT6

/-- One stored observation, the tuple `(timestamp, temp, hum, payload_text, topic)`
appended by `_on_message` in app/mqtt_simple.py. -/
structure Sample where
  ts : ℚ
  temp : Option ℚ
  hum : Option ℚ
  raw : String
  topic : String
deriving DecidableEq, Repr

/-- DEFAULT_MAX_SAMPLES in app/mqtt_simple.py: the per-device deque maxlen. -/
def DEFAULT_MAX_SAMPLES : Nat := 1000

/-- Appending to a `collections.deque(maxlen=C)`: the new element goes to the
right end and, if the length would exceed `C`, the oldest (leftmost) elements
are discarded. -/
def dequeAppend (C : Nat) (dq : List Sample) (x : Sample) : List Sample :=
  let l := dq ++ [x]
  if C < l.length then l.drop (l.length - C) else l

/-- The last `C` elements of a list, in order: what a maxlen-`C` deque retains. -/
def lastN (C : Nat) (l : List Sample) : List Sample :=
  l.drop (l.length - C)

/-- A parsed JSON-ish payload value, as far as `_infer_device_id` inspects it:
it only distinguishes string values from everything else. -/
inductive PVal
  | str (s : String)
  | num (q : ℚ)
  | other
deriving DecidableEq, Repr

/-- The identifier keys probed in order by `_infer_device_id`. -/
def ID_KEYS : List String := ["device_id", "device", "id", "dev", "name"]

/-- Membership test and string check for one key of the parsed dict:
`if k in parsed and isinstance(parsed[k], str): return parsed[k]`. -/
def lookupStr (d : List (String × PVal)) (k : String) : Option String :=
  match d.lookup k with
  | some (PVal.str s) => some s
  | _ => none

/-- Scan of the candidate identifier keys in order, returning the first
string-valued hit. -/
def findIdKey (d : List (String × PVal)) : Option String :=
  ID_KEYS.findSome? (lookupStr d)

/-- The function `_infer_device_id(parsed, topic)` of app/mqtt_simple.py:
prefer an explicit string identifier field of the parsed payload; else the
trailing segment of the stripped topic when the topic contains a slash;
else `topic or "unknown"` (the raw topic when non-empty, `"unknown"` when
empty). `parsed = none` models both an unparseable payload and a non-dict. -/
def infer_device_id (parsed : Option (List (String × PVal))) (topic : String) : String :=
  match parsed with
  | some d =>
    match findIdKey d with
    | some s => s
    | none =>
      if topic.toList.contains '/' then (topic.trim.splitOn "/").getLastD ""
      else if topic = "" then "unknown" else topic
  | none =>
    if topic.toList.contains '/' then (topic.trim.splitOn "/").getLastD ""
    else if topic = "" then "unknown" else topic

/-- The module store `_store`: a defaultdict from device id to its deque.
A device with no history maps to the empty list (`_store.get` returning
`None` and an empty deque are indistinguishable to every reader, which
guards with `if not dq`). -/
abbrev Store : Type := String → List Sample

/-- Appending one sample to one device's deque inside the store. -/
def storeAppend (C : Nat) (st : Store) (dev : String) (x : Sample) : Store :=
  fun d => if d = dev then dequeAppend C (st d) x else st d

/-- The tail of `_on_message`: infer the device id from the parsed payload and
topic, then append the sample tuple to that device's deque. The numeric-field
extraction `_parse_payload` is passed in as its result `(temp, hum)`. -/
def on_message (C : Nat) (st : Store) (topic : String)
    (parsed : Option (List (String × PVal))) (temp hum : Option ℚ)
    (now : ℚ) (payload_text : String) : Store :=
  storeAppend C st (infer_device_id parsed topic) ⟨now, temp, hum, payload_text, topic⟩

/-- A whole ingestion run: fold `storeAppend` over a sequence of
(device id, sample) messages starting from the empty store. -/
def ingestAll (C : Nat) (msgs : List (String × Sample)) : Store :=
  msgs.foldl (fun st m => storeAppend C st m.1 m.2) (fun _ => [])

/-- The window scan inside `MQTTSimple.get_avg`: iterate the deque from
newest to oldest and break at the first sample with `ts < cutoff`.  The
returned list is exactly the set of samples that contribute to the
aggregate, in scan (newest-first) order. -/
def inWindow (cutoff : ℚ) (dq : List Sample) : List Sample :=
  dq.reverse.takeWhile (fun s => decide (cutoff ≤ s.ts))

/-- The average `(sum(xs)/len(xs)) if xs else None` of a collected field list. -/
def mean? (l : List ℚ) : Option ℚ :=
  if l.isEmpty then none else some (l.sum / l.length)

/-- One step of the running maximum kept in `last_ts` by the scan loop of
`get_avg`: `last_ts = ts if last_ts is None else (ts if ts > last_ts else last_ts)`. -/
def maxStep (acc : Option ℚ) (ts : ℚ) : Option ℚ :=
  match acc with
  | none => some ts
  | some m => if m < ts then some ts else some m

/-- The running maximum over the timestamps of the scanned samples. -/
def lastTsFold (l : List ℚ) : Option ℚ :=
  l.foldl maxStep none

/-- The result dict of `get_avg`. -/
structure AvgResult where
  temperature_c : Option ℚ
  humidity_pct : Option ℚ
  last_ts : ℚ
deriving DecidableEq, Repr

/-- `MQTTSimple.get_avg(device_id, window_seconds)` of app/mqtt_simple.py,
evaluated at wall-clock time `now`: `None` when the device has no deque or the
scan finds no sample at or after `now - window_seconds`; otherwise the per-field
means over the in-window samples that carry that field, with the maximum
in-window timestamp as `last_ts`. -/
def get_avg (store : Store) (device_id : String) (now : ℚ) (window_seconds : ℤ) :
    Option AvgResult :=
  let cutoff := now - (window_seconds : ℚ)
  let dq := store device_id
  if dq.isEmpty then none
  else
    let win := inWindow cutoff dq
    match lastTsFold (win.map Sample.ts) with
    | none => none
    | some lts =>
        some { temperature_c := mean? (win.filterMap Sample.temp)
               humidity_pct := mean? (win.filterMap Sample.hum)
               last_ts := lts }

/-- The weighted blend of pages/04_usb_control.py: `w1 = 1 - w2`; both sensor
means present gives `w1*avg_s1 + w2*avg_s2`; exactly one present gives that
mean unchanged; none present gives `None`. -/
def weighted_avg (w2 : ℚ) (avg_s1 avg_s2 : Option ℚ) : Option ℚ :=
  let w1 := 1 - w2
  match avg_s1, avg_s2 with
  | some a1, some a2 => some (w1 * a1 + w2 * a2)
  | none, some a2 => some a2
  | some a1, none => some a1
  | none, none => none

/-- The session-state manual override latch value: `{"state": "on"}` or
`{"state": "off"}` (the stored timestamp never influences behaviour). -/
inductive OvState
  | on
  | off
deriving DecidableEq, Repr

/-- The four distinct decision outcomes printed by the control loop:
"AUTO-ON", "AUTO-OFF", "Auto-ON suppressed by manual OFF override",
"No action". -/
inductive Decision
  | autoOn
  | autoOff
  | suppressedOn
  | noAction
deriving DecidableEq, Repr

/-- The actuator command a decision issues: `suppressedOn` and `noAction`
both issue no command. -/
inductive Action
  | TURN_ON
  | TURN_OFF
  | NO_ACTION
deriving DecidableEq, Repr

/-- Which actuator action each decision outcome performs. -/
def Decision.action : Decision → Action
  | .autoOn => .TURN_ON
  | .autoOff => .TURN_OFF
  | .suppressedOn => .NO_ACTION
  | .noAction => .NO_ACTION

/-- One pass of the decision block of `usb_control_fragment`: with no blend
the loop short-circuits to "No action (no humidity)"; otherwise
`allow_auto_on = not (manual_override and manual_override.state == "off")`,
then `if blend > th_on` (auto-ON, or suppressed), `elif blend < th_off`
(auto-OFF), else no action. -/
def decide_cycle (th_on th_off : ℚ) (override : Option OvState)
    (blend : Option ℚ) : Decision :=
  match blend with
  | none => .noAction
  | some wavg =>
    if th_on < wavg then
      if override = some OvState.off then .suppressedOn else .autoOn
    else if wavg < th_off then .autoOff
    else .noAction

/-- The "Manual ON" button handler: issue `/on` to the Pi and set
`ws_manual_override = {"state": "on"}`. -/
def manual_on (_override : Option OvState) : Option OvState × Action :=
  (some OvState.on, Action.TURN_ON)

/-- The "Manual OFF" button handler: issue `/off` to the Pi and set
`ws_manual_override = {"state": "off"}`. -/
def manual_off (_override : Option OvState) : Option OvState × Action :=
  (some OvState.off, Action.TURN_OFF)

/-- The "Clear manual override" button: pop the latch from session state. -/
def clear_override (_override : Option OvState) : Option OvState :=
  none

/-- A streamlit `number_input(min_value=lo, max_value=hi)`: the widget admits
exactly the values inside its own bounds. -/
def number_input_ok (lo hi v : ℚ) : Bool :=
  decide (lo ≤ v) && decide (v ≤ hi)

/-- The threshold configuration surface of pages/04_usb_control.py: the two
sidebar number inputs `ws_th_on` and `ws_th_off`, each bounded to [0, 100]
independently; an accepted configuration is returned unchanged. -/
def set_thresholds (on_v off_v : ℚ) : Option (ℚ × ℚ) :=
  if number_input_ok 0 100 on_v && number_input_ok 0 100 off_v then
    some (on_v, off_v)
  else none

/-- One row of `all_entries` in `usb_control_fragment`: the dict built from a
stored sample, with `ts_epoch = _to_epoch(ts)` (`none` when the timestamp
cannot be converted to an epoch value). -/
structure Entry where
  device : String
  ts_epoch : Option ℚ
  temp : Option ℚ
  hum : Option ℚ
  raw : String
  topic : String
deriving DecidableEq, Repr

/-- WINDOW_RECORDS in pages/04_usb_control.py. -/
def WINDOW_RECORDS : Nat := 60

/-- The first sort key `(e["ts_epoch"] is None, e["ts_epoch"])`: a lexicographic
comparison in which every `None` compares equal to every other `None` (Python
never orders two `None`s because the tuple comparison decides on equality
first). -/
def le1 (a b : Entry) : Bool :=
  (!a.ts_epoch.isNone && b.ts_epoch.isNone) ||
    (a.ts_epoch.isNone == b.ts_epoch.isNone
      && decide (a.ts_epoch.getD 0 ≤ b.ts_epoch.getD 0))

/-- The function `_sort_key`: the parsed epoch, with `None` replaced by `-1.0`. -/
def sort_key (e : Entry) : ℚ :=
  match e.ts_epoch with
  | some q => q
  | none => -1

/-- Comparison by `_sort_key` used by the second (decisive) sort. -/
def le2 (a b : Entry) : Bool :=
  decide (sort_key a ≤ sort_key b)

/-- The two consecutive stable sorts applied to `all_entries`; the second,
by `_sort_key`, decides the final order. -/
def sorted_entries (entries : List Entry) : List Entry :=
  (entries.mergeSort le1).mergeSort le2

/-- `all_entries[-window_records:]`: the kept sliding window, i.e. the last
`window_records` entries of the sorted list. -/
def recent_window (entries : List Entry) (window_records : Nat) : List Entry :=
  let s := sorted_entries entries
  s.drop (s.length - window_records)

/-- C1: with thresholds 75/40 and no override latched, the decision issues
TURN_ON when the blend exceeds 75, TURN_OFF when it is below 40, and
NO_ACTION inside the band; the blend sequence [50, 80, 60, 35, 60] yields
the action sequence [NO_ACTION, TURN_ON, NO_ACTION, TURN_OFF, NO_ACTION]. -/
theorem C1_hysteresis_decision (blend : ℚ) :
    (75 < blend → (decide_cycle 75 40 none (some blend)).action = Action.TURN_ON) ∧
    (blend < 40 → (decide_cycle 75 40 none (some blend)).action = Action.TURN_OFF) ∧
    (¬ 75 < blend → ¬ blend < 40 →
      (decide_cycle 75 40 none (some blend)).action = Action.NO_ACTION) ∧
    (([(50 : ℚ), 80, 60, 35, 60].map
        (fun b => (decide_cycle 75 40 none (some b)).action))
      = [Action.NO_ACTION, Action.TURN_ON, Action.NO_ACTION,
         Action.TURN_OFF, Action.NO_ACTION]) := by
  refine ⟨fun h => ?_, fun h => ?_, fun h1 h2 => ?_, by decide⟩
  · simp [decide_cycle, Decision.action, h]
  · have h75 : ¬ (75 : ℚ) < blend := by linarith
    simp [decide_cycle, Decision.action, h, h75]
  · simp [decide_cycle, Decision.action, h1, h2]

/-- Witness for C1 at concrete blends 80, 35 and 60. -/
theorem C1_hysteresis_decision_witness :
    ((75 : ℚ) < 80 ∧ (decide_cycle 75 40 none (some 80)).action = Action.TURN_ON) ∧
    ((35 : ℚ) < 40 ∧ (decide_cycle 75 40 none (some 35)).action = Action.TURN_OFF) ∧
    ((decide_cycle 75 40 none (some 60)).action = Action.NO_ACTION) :=
  ⟨⟨by decide, (C1_hysteresis_decision 80).1 (by decide)⟩,
   ⟨by decide, (C1_hysteresis_decision 35).2.1 (by decide)⟩,
   (C1_hysteresis_decision 60).2.2.1 (by decide) (by decide)⟩

/-- C2: with the override latched OFF, a blend above the ON threshold is
suppressed to a (distinctly logged) no-action, while a blend below the OFF
threshold still turns the actuator off; after clearing the override the same
high blend turns the actuator on. -/
theorem C2_override_precedence (blend th_on th_off : ℚ) (hth : th_off < th_on) :
    (th_on < blend →
      decide_cycle th_on th_off (some OvState.off) (some blend) = Decision.suppressedOn ∧
      (decide_cycle th_on th_off (some OvState.off) (some blend)).action = Action.NO_ACTION) ∧
    (blend < th_off →
      decide_cycle th_on th_off (some OvState.off) (some blend) = Decision.autoOff ∧
      (decide_cycle th_on th_off (some OvState.off) (some blend)).action = Action.TURN_OFF) ∧
    (th_on < blend →
      decide_cycle th_on th_off (clear_override (some OvState.off)) (some blend) = Decision.autoOn ∧
      (decide_cycle th_on th_off (clear_override (some OvState.off)) (some blend)).action
        = Action.TURN_ON) := by
  refine ⟨fun h => ?_, fun h => ?_, fun h => ?_⟩
  · simp [decide_cycle, Decision.action, h]
  · have hno : ¬ th_on < blend := by linarith
    simp [decide_cycle, Decision.action, h, hno]
  · simp [decide_cycle, clear_override, Decision.action, h]

/-- Witness for C2 at thresholds 75/40 with blends 90 and 35. -/
theorem C2_override_precedence_witness :
    ((40 : ℚ) < 75 ∧ (75 : ℚ) < 90 ∧ (35 : ℚ) < 40) ∧
    decide_cycle 75 40 (some OvState.off) (some 90) = Decision.suppressedOn ∧
    decide_cycle 75 40 (some OvState.off) (some 35) = Decision.autoOff ∧
    decide_cycle 75 40 (clear_override (some OvState.off)) (some 90) = Decision.autoOn :=
  ⟨⟨by decide, by decide, by decide⟩,
   ((C2_override_precedence 90 75 40 (by decide)).1 (by decide)).1,
   ((C2_override_precedence 35 75 40 (by decide)).2.1 (by decide)).1,
   ((C2_override_precedence 90 75 40 (by decide)).2.2 (by decide)).1⟩

/-- C5: the blend of the two sensor means returns the single available mean
unchanged when only one sensor reports (in particular mean 10 with configured
sensor-1 weight 3/10 blends to 10, not 3), is absent when neither reports,
and is the renormalized weighted mean when both report (the code's weights
w1 = 1 - w2 and w2 always sum to 1, so no explicit division is needed). -/
theorem C5_weighted_combiner (w2 a1 a2 : ℚ) :
    weighted_avg w2 (some a1) none = some a1 ∧
    weighted_avg w2 none (some a2) = some a2 ∧
    weighted_avg w2 none none = none ∧
    weighted_avg w2 (some a1) (some a2)
      = some (((1 - w2) * a1 + w2 * a2) / ((1 - w2) + w2)) ∧
    weighted_avg (7 / 10) (some 10) none = some 10 ∧
    weighted_avg (7 / 10) (some 10) none ≠ some 3 := by
  refine ⟨rfl, rfl, rfl, ?_, by decide, by decide⟩
  have h : (1 - w2) + w2 = 1 := by ring
  simp [weighted_avg, h]

/-- C7 (code bug record): the Manual ON handler does not clear the override
latch; it stores the latch with state ON while issuing TURN_ON (contradicting
the page's own docstring "Manual ON clears the override"); Manual OFF stores
state OFF.  The ON-valued latch is nevertheless treated by the decision cycle
exactly like an absent latch. -/
theorem C7_manual_on_latch :
    (manual_on none).1 = some OvState.on ∧
    (manual_on none).1 ≠ none ∧
    (manual_on none).2 = Action.TURN_ON ∧
    (manual_off none).1 = some OvState.off ∧
    (manual_off none).2 = Action.TURN_OFF ∧
    decide_cycle 75 40 (manual_on (some OvState.off)).1 (some 90)
      = decide_cycle 75 40 none (some 90) := by
  refine ⟨rfl, by decide, rfl, rfl, rfl, by decide⟩

/-- C8 counterexample: the sidebar threshold inputs accept the inverted
configuration on = 50, off = 90 (off exceeding on) instead of rejecting it. -/
theorem C8_counterexample_inverted_accepted :
    set_thresholds 50 90 = some (50, 90) ∧ (50 : ℚ) ≤ 90 := by
  exact ⟨by decide, by decide⟩

/-- C8 amended: the threshold configuration surface validates each threshold
independently against its own [0, 100] widget bounds and nothing else; in
particular it never enforces threshold_off < threshold_on, so inverted pairs
inside the bounds are accepted. -/
theorem C8_amended_thresholds (on_v off_v : ℚ) :
    set_thresholds on_v off_v = some (on_v, off_v)
      ↔ (0 ≤ on_v ∧ on_v ≤ 100 ∧ 0 ≤ off_v ∧ off_v ≤ 100) := by
  simp only [set_thresholds, number_input_ok, Bool.and_eq_true, decide_eq_true_eq]
  constructor
  · intro h
    by_cases hc : ((0 ≤ on_v ∧ on_v ≤ 100) ∧ 0 ≤ off_v ∧ off_v ≤ 100)
    · tauto
    · rw [if_neg ?_] at h
      · exact absurd h (by simp)
      · simpa [and_assoc] using hc
  · intro h
    rw [if_pos (by tauto)]

/-- Appending to a full deque retains exactly the last `C` arrivals: one step. -/
theorem dequeAppend_lastN (C : Nat) (hC : 0 < C) (l : List Sample) (x : Sample) :
    dequeAppend C (lastN C l) x = lastN C (l ++ [x]) := by
  rcases Nat.lt_or_ge l.length C with h | h
  · have e1 : lastN C l = l := by
      simp [lastN, Nat.sub_eq_zero_of_le (Nat.le_of_lt h)]
    have h2 : ¬ C < (l ++ [x]).length := by
      simp only [List.length_append, List.length_singleton]; omega
    have h3 : (l ++ [x]).length - C = 0 := by
      simp only [List.length_append, List.length_singleton]; omega
    rw [e1]
    simp only [dequeAppend, lastN]
    rw [if_neg h2, h3, List.drop_zero]
  · have e1 : (lastN C l).length = C := by
      simp only [lastN, List.length_drop]; omega
    have hcond : C < (lastN C l ++ [x]).length := by
      simp only [List.length_append, List.length_singleton, e1]; omega
    have lhs : dequeAppend C (lastN C l) x = (lastN C l ++ [x]).drop 1 := by
      simp only [dequeAppend]
      rw [if_pos hcond]
      congr 1
      simp only [List.length_append, List.length_singleton, e1]; omega
    rw [lhs]
    show (l.drop (l.length - C) ++ [x]).drop 1
      = (l ++ [x]).drop ((l ++ [x]).length - C)
    rw [List.drop_append_eq_append_drop, List.drop_append_eq_append_drop,
      List.drop_drop]
    congr 1
    · congr 1
      simp only [List.length_append, List.length_singleton]; omega
    · congr 1
      simp only [List.length_append, List.length_singleton, List.length_drop]; omega

/-- Folding the deque append over an arrival sequence from the empty deque
leaves exactly the last `C` arrivals in order. -/
theorem foldl_dequeAppend_eq_lastN (C : Nat) (hC : 0 < C) (xs : List Sample) :
    xs.foldl (dequeAppend C) [] = lastN C xs := by
  induction xs using List.reverseRecOn with
  | nil => simp [lastN]
  | append_singleton ys y ih =>
      rw [List.foldl_append, List.foldl_cons, List.foldl_nil, ih,
        dequeAppend_lastN C hC]

/-- Projecting a whole ingestion run onto one device gives a plain deque fold
over that device's own samples in arrival order. -/
theorem foldl_storeAppend_apply (C : Nat) (msgs : List (String × Sample))
    (st : Store) (dev : String) :
    (msgs.foldl (fun s m => storeAppend C s m.1 m.2) st) dev
      = ((msgs.filter (fun m => decide (m.1 = dev))).map Prod.snd).foldl
          (dequeAppend C) (st dev) := by
  induction msgs generalizing st with
  | nil => rfl
  | cons m ms ih =>
      rw [List.foldl_cons, ih]
      by_cases h : m.1 = dev
      · rw [List.filter_cons_of_pos (by simpa using h), List.map_cons,
          List.foldl_cons]
        congr 1
        simp [storeAppend, h]
      · rw [List.filter_cons_of_neg (by simpa using h)]
        congr 1
        have h2 : ¬ dev = m.1 := fun hh => h hh.symm
        simp [storeAppend, h2]

/-- C3: for every ingestion sequence and every source, the per-source history
never exceeds the capacity 1000, and it always consists of exactly that
source's most recent arrivals, in arrival order (so an append at capacity
evicts precisely the oldest). -/
theorem C3_bounded_history (msgs : List (String × Sample)) (dev : String) :
    (ingestAll DEFAULT_MAX_SAMPLES msgs dev).length ≤ DEFAULT_MAX_SAMPLES ∧
    ingestAll DEFAULT_MAX_SAMPLES msgs dev
      = lastN DEFAULT_MAX_SAMPLES
          ((msgs.filter (fun m => decide (m.1 = dev))).map Prod.snd) := by
  have h1 : ingestAll DEFAULT_MAX_SAMPLES msgs dev
      = ((msgs.filter (fun m => decide (m.1 = dev))).map Prod.snd).foldl
          (dequeAppend DEFAULT_MAX_SAMPLES) [] := by
    simpa using foldl_storeAppend_apply DEFAULT_MAX_SAMPLES msgs (fun _ => []) dev
  rw [h1, foldl_dequeAppend_eq_lastN _ (by decide)]
  refine ⟨?_, rfl⟩
  simp only [lastN, List.length_drop]
  omega

/-- Stopping a scan at the first failing element finds every satisfying
element when the predicate can only switch from satisfied to unsatisfied
along the list. -/
theorem takeWhile_eq_filter_of_antitone {p : Sample → Bool} :
    ∀ {r : List Sample}, r.Pairwise (fun a b => p b = true → p a = true) →
      r.takeWhile p = r.filter p := by
  intro r
  induction r with
  | nil => intro _; rfl
  | cons a r ih =>
      intro h
      rcases List.pairwise_cons.mp h with ⟨h1, h2⟩
      cases hp : p a with
      | true =>
          rw [List.takeWhile_cons_of_pos hp, List.filter_cons_of_pos hp, ih h2]
      | false =>
          rw [List.takeWhile_cons_of_neg (by simp [hp]),
            List.filter_cons_of_neg (by simp [hp])]
          symm
          rw [List.filter_eq_nil_iff]
          intro b hb hpb
          have := h1 b hb (by simpa using hpb)
          simp [hp] at this

/-- On a history whose timestamps strictly increase in arrival order, the
backward scan of `get_avg` selects exactly the samples at or after the
cutoff. -/
theorem inWindow_eq_filter_of_sorted (cutoff : ℚ) (dq : List Sample)
    (hs : dq.Pairwise (fun a b => a.ts < b.ts)) :
    inWindow cutoff dq = (dq.filter (fun s => decide (cutoff ≤ s.ts))).reverse := by
  have hrev : dq.reverse.Pairwise (fun a b => b.ts < a.ts) :=
    List.pairwise_reverse.mpr hs
  have hmono : dq.reverse.Pairwise
      (fun a b => (decide (cutoff ≤ b.ts) = true) → (decide (cutoff ≤ a.ts) = true)) := by
    refine hrev.imp ?_
    intro a b hab
    simp only [decide_eq_true_eq]
    intro hb
    exact le_trans hb (le_of_lt hab)
  rw [inWindow, takeWhile_eq_filter_of_antitone hmono, List.filter_reverse]

/-- C4: the aggregate of `get_avg` is computed over exactly the samples kept
by the backward scan `inWindow`; every kept sample lies at or after the
cutoff `now - seconds`; and when the history's timestamps are stored in
increasing order the kept samples are exactly those with
timestamp at or above `now - seconds` (out-of-order in-window samples are
kept only when the scan reaches them before stopping). -/
theorem C4_time_window (now : ℚ) (seconds : ℤ) (dq : List Sample) :
    (∀ (st : Store) (dev : String), st dev = dq → dq.isEmpty = false →
      get_avg st dev now seconds
        = match lastTsFold ((inWindow (now - (seconds : ℚ)) dq).map Sample.ts) with
          | none => none
          | some lts =>
              some { temperature_c :=
                       mean? ((inWindow (now - (seconds : ℚ)) dq).filterMap Sample.temp)
                     humidity_pct :=
                       mean? ((inWindow (now - (seconds : ℚ)) dq).filterMap Sample.hum)
                     last_ts := lts }) ∧
    (∀ s ∈ inWindow (now - (seconds : ℚ)) dq, now - (seconds : ℚ) ≤ s.ts) ∧
    (dq.Pairwise (fun a b => a.ts < b.ts) →
      inWindow (now - (seconds : ℚ)) dq
        = (dq.filter (fun s => decide (now - (seconds : ℚ) ≤ s.ts))).reverse) := by
  refine ⟨?_, ?_, inWindow_eq_filter_of_sorted _ dq⟩
  · intro st dev hst hne
    simp only [get_avg, hst, hne, Bool.false_eq_true, if_false]
  · intro s hs
    have h := List.mem_takeWhile_imp hs
    simpa using h

/-- Witness for C4 on the timestamp-sorted history [1, 2, 3] with now = 3 and
a 1-second window: the scan keeps exactly the samples with timestamp ≥ 2. -/
theorem C4_time_window_witness :
    ([⟨1, none, none, "", ""⟩, ⟨2, none, none, "", ""⟩,
        ⟨3, none, none, "", ""⟩] : List Sample).Pairwise (fun a b => a.ts < b.ts) ∧
    inWindow ((3 : ℚ) - ((1 : ℤ) : ℚ))
        [⟨1, none, none, "", ""⟩, ⟨2, none, none, "", ""⟩, ⟨3, none, none, "", ""⟩]
      = (([⟨1, none, none, "", ""⟩, ⟨2, none, none, "", ""⟩,
            ⟨3, none, none, "", ""⟩] : List Sample).filter
          (fun s => decide ((3 : ℚ) - ((1 : ℤ) : ℚ) ≤ s.ts))).reverse :=
  ⟨by decide,
   (C4_time_window 3 1
      [⟨1, none, none, "", ""⟩, ⟨2, none, none, "", ""⟩,
        ⟨3, none, none, "", ""⟩]).2.2 (by decide)⟩

/-- The running maximum starting from a seed value never comes back empty. -/
theorem foldl_maxStep_ne_none (l : List ℚ) (m : ℚ) :
    l.foldl maxStep (some m) ≠ none := by
  induction l generalizing m with
  | nil => simp
  | cons a l ih =>
      rw [List.foldl_cons]
      by_cases h : m < a
      · simpa [maxStep, h] using ih a
      · simpa [maxStep, h] using ih m

/-- The scan's `last_ts` is `None` exactly when no sample was scanned. -/
theorem lastTsFold_eq_none_iff (l : List ℚ) :
    lastTsFold l = none ↔ l = [] := by
  cases l with
  | nil => simp [lastTsFold]
  | cons a l =>
      simp only [lastTsFold, List.foldl_cons, maxStep]
      refine ⟨fun h => absurd h (foldl_maxStep_ne_none l a), fun h => by simp at h⟩

/-- The field average is absent exactly when no sample contributed. -/
theorem mean?_eq_none_iff (l : List ℚ) : mean? l = none ↔ l = [] := by
  by_cases h : l = []
  · simp [mean?, h]
  · have h2 : l.isEmpty = false := by simpa [List.isEmpty_iff] using h
    simp [mean?, h, h2]

/-- C6: `get_avg` is absent exactly when the source has no history or the
window scan keeps no sample; otherwise each field's mean is taken over only
the kept samples that carry that field, and a field's mean is absent (never
zero) exactly when no kept sample carries it; with nothing ingested every
query returns absent. -/
theorem C6_absent_and_partial_fields :
    (∀ (store : Store) (dev : String) (now : ℚ) (w : ℤ),
      get_avg store dev now w = none ↔
        (store dev = [] ∨ inWindow (now - (w : ℚ)) (store dev) = [])) ∧
    (∀ (store : Store) (dev : String) (now : ℚ) (w : ℤ) (a : AvgResult),
      get_avg store dev now w = some a →
        a.humidity_pct = mean? ((inWindow (now - (w : ℚ)) (store dev)).filterMap Sample.hum) ∧
        a.temperature_c = mean? ((inWindow (now - (w : ℚ)) (store dev)).filterMap Sample.temp) ∧
        (a.humidity_pct = none ↔ ∀ s ∈ inWindow (now - (w : ℚ)) (store dev), s.hum = none) ∧
        (a.temperature_c = none ↔ ∀ s ∈ inWindow (now - (w : ℚ)) (store dev), s.temp = none)) ∧
    (∀ (dev : String) (now : ℚ) (w : ℤ), get_avg (fun _ => []) dev now w = none) := by
  refine ⟨?_, ?_, fun dev now w => rfl⟩
  · intro store dev now w
    by_cases hdq : store dev = []
    · simp [get_avg, hdq]
    · have hne : (store dev).isEmpty = false := by simpa [List.isEmpty_iff] using hdq
      simp only [get_avg, hne, Bool.false_eq_true, if_false]
      rcases hfold : lastTsFold ((inWindow (now - (w : ℚ)) (store dev)).map Sample.ts)
        with _ | lts
      · have hwin : inWindow (now - (w : ℚ)) (store dev) = [] := by
          have h2 := (lastTsFold_eq_none_iff _).mp hfold
          simpa using h2
        simp [hwin]
      · have hwin : inWindow (now - (w : ℚ)) (store dev) ≠ [] := by
          intro hw
          rw [hw] at hfold
          simp [lastTsFold] at hfold
        simp [hdq, hwin]
  · intro store dev now w a ha
    by_cases hdq : store dev = []
    · simp [get_avg, hdq] at ha
    · have hne : (store dev).isEmpty = false := by simpa [List.isEmpty_iff] using hdq
      simp only [get_avg, hne, Bool.false_eq_true, if_false] at ha
      rcases hfold : lastTsFold ((inWindow (now - (w : ℚ)) (store dev)).map Sample.ts)
        with _ | lts
      · rw [hfold] at ha
        exact absurd ha (by simp)
      · rw [hfold] at ha
        have ha2 := Option.some.inj ha
        rw [← ha2]
        refine ⟨rfl, rfl, ?_, ?_⟩
        · show mean? ((inWindow (now - (w : ℚ)) (store dev)).filterMap Sample.hum) = none ↔ _
          rw [mean?_eq_none_iff, List.filterMap_eq_nil_iff]
        · show mean? ((inWindow (now - (w : ℚ)) (store dev)).filterMap Sample.temp) = none ↔ _
          rw [mean?_eq_none_iff, List.filterMap_eq_nil_iff]

/-- Witness for C6: one in-window sample carrying humidity 50 but no
temperature yields a humidity mean of 50, an absent temperature mean, and the
empty store yields absent. -/
theorem C6_absent_and_partial_fields_witness :
    (⟨none, some 50, 5⟩ : AvgResult).humidity_pct
        = mean? ((inWindow ((10 : ℚ) - ((30 : ℤ) : ℚ))
            ((fun _ => [⟨5, none, some 50, "", ""⟩] : Store) "d")).filterMap Sample.hum) ∧
    get_avg (fun _ => []) "d" 10 30 = none :=
  ⟨(C6_absent_and_partial_fields.2.1 (fun _ => [⟨5, none, some 50, "", ""⟩]) "d" 10 30
      ⟨none, some 50, 5⟩ (by
        norm_num [get_avg, inWindow, lastTsFold, maxStep, mean?, List.takeWhile,
          List.filterMap])).1,
   C6_absent_and_partial_fields.2.2 "d" 10 30⟩

/-- C9 counterexample: a message with an empty routing key (no delimiters)
and an unparseable/empty payload is not dropped; it is ingested under the
fallback identifier "unknown". -/
theorem C9_counterexample_not_dropped :
    infer_device_id none "" = "unknown" ∧
    on_message DEFAULT_MAX_SAMPLES (fun _ => []) "" none none none 0 "" "unknown"
      = [⟨0, none, none, "", ""⟩] := by
  exact ⟨rfl, rfl⟩

/-- C9 amended: ingestion determines the source id by preferring an explicit
string identifier field of the structured payload, then the trailing segment
of the stripped routing key when it contains a delimiter, then the raw
routing key verbatim when non-empty, and finally the literal "unknown" for an
empty routing key; a Sample is then always appended to that source's history
(no message is ever dropped for lack of a source id). -/
theorem C9_amended_source_id :
    (∀ (d : List (String × PVal)) (topic : String) (s : String),
      findIdKey d = some s → infer_device_id (some d) topic = s) ∧
    (∀ (d : List (String × PVal)) (topic : String),
      findIdKey d = none → infer_device_id (some d) topic = infer_device_id none topic) ∧
    (∀ topic : String, topic.toList.contains '/' = true →
      infer_device_id none topic = (topic.trim.splitOn "/").getLastD "") ∧
    (∀ topic : String, topic.toList.contains '/' = false → topic ≠ "" →
      infer_device_id none topic = topic) ∧
    (infer_device_id none "" = "unknown") ∧
    (∀ (C : Nat) (st : Store) (topic : String)
        (parsed : Option (List (String × PVal)))
        (temp hum : Option ℚ) (now : ℚ) (payload : String),
      on_message C st topic parsed temp hum now payload (infer_device_id parsed topic)
        = dequeAppend C (st (infer_device_id parsed topic))
            ⟨now, temp, hum, payload, topic⟩) := by
  refine ⟨?_, ?_, ?_, ?_, rfl, ?_⟩
  · intro d topic s h
    simp [infer_device_id, h]
  · intro d topic h
    simp [infer_device_id, h]
  · intro topic h
    have h3 : '/' ∈ topic.data := by simpa using h
    simp [infer_device_id, h3]
  · intro topic h h2
    have h3 : '/' ∉ topic.data := by simpa using h
    simp [infer_device_id, h3, h2]
  · intro C st topic parsed temp hum now payload
    simp [on_message, storeAppend]

/-- Witness for C9: the explicit identifier field wins over the routing key,
and a message on topic "MSN/group6/easy_log" with no identifier field is
ingested under the trailing segment "easy_log". -/
theorem C9_amended_source_id_witness :
    infer_device_id (some [("device_id", PVal.str "dev7")]) "MSN/group6/easy_log" = "dev7" ∧
    infer_device_id none "abc" = "abc" ∧
    on_message DEFAULT_MAX_SAMPLES (fun _ => []) "MSN/group6/easy_log" none
        (some 21) (some 48) 0 "t=21 h=48" (infer_device_id none "MSN/group6/easy_log")
      = dequeAppend DEFAULT_MAX_SAMPLES []
          ⟨0, some 21, some 48, "t=21 h=48", "MSN/group6/easy_log"⟩ :=
  ⟨C9_amended_source_id.1 [("device_id", PVal.str "dev7")] "MSN/group6/easy_log" "dev7" rfl,
   C9_amended_source_id.2.2.2.1 "abc" rfl (by decide),
   C9_amended_source_id.2.2.2.2.2 DEFAULT_MAX_SAMPLES (fun _ => []) "MSN/group6/easy_log"
     none (some 21) (some 48) 0 "t=21 h=48"⟩

/-- A concrete batch for exercising the sliding window: one fresh entry
followed by three entries whose timestamps could not be converted. -/
def staleFirstEntries : List Entry :=
  [⟨"d", some 5, none, none, "", ""⟩, ⟨"a", none, none, none, "", ""⟩,
   ⟨"b", none, none, none, "", ""⟩, ⟨"c", none, none, none, "", ""⟩]

/-- C10: in the auto-control sliding window (the page runs it with
`window_records = WINDOW_RECORDS = 60`), an entry whose timestamp could not
be converted gets sort key -1.0; in the sorted order every such entry comes
strictly before every entry with a parseable non-negative epoch; and whenever
more entries exist than the window holds, a kept unparseable entry forces
every non-negative-epoch entry to be kept as well — the unparseable entries
are the first excluded. -/
theorem C10_unparseable_first_excluded (entries : List Entry) (window_records : Nat) :
    (WINDOW_RECORDS = 60) ∧
    (∀ e : Entry, e.ts_epoch = none → sort_key e = -1) ∧
    (recent_window entries window_records
      = (sorted_entries entries).drop
          ((sorted_entries entries).length - window_records)) ∧
    (∀ (i j : Nat) (ei ej : Entry),
      (sorted_entries entries)[i]? = some ei → ei.ts_epoch = none →
      (sorted_entries entries)[j]? = some ej →
      ∀ q : ℚ, ej.ts_epoch = some q → 0 ≤ q → i < j) ∧
    (window_records < entries.length →
      ∀ (i : Nat) (ei : Entry),
        (sorted_entries entries)[i]? = some ei → ei.ts_epoch = none →
        (sorted_entries entries).length - window_records ≤ i →
        ∀ (j : Nat) (ej : Entry) (q : ℚ),
          (sorted_entries entries)[j]? = some ej → ej.ts_epoch = some q → 0 ≤ q →
          (sorted_entries entries).length - window_records ≤ j) := by
  have htrans : ∀ a b c : Entry, le2 a b → le2 b c → le2 a c := by
    intro a b c hab hbc
    simp only [le2, decide_eq_true_eq] at hab hbc ⊢
    exact le_trans hab hbc
  have htotal : ∀ a b : Entry, le2 a b || le2 b a := by
    intro a b
    simp only [le2, Bool.or_eq_true, decide_eq_true_eq]
    exact le_total _ _
  have hpw : (sorted_entries entries).Pairwise (fun a b => le2 a b = true) := by
    show (List.mergeSort (entries.mergeSort le1) le2).Pairwise _
    exact List.sorted_mergeSort htrans htotal (entries.mergeSort le1)
  have key : ∀ (i j : Nat) (ei ej : Entry),
      (sorted_entries entries)[i]? = some ei → ei.ts_epoch = none →
      (sorted_entries entries)[j]? = some ej →
      ∀ q : ℚ, ej.ts_epoch = some q → 0 ≤ q → i < j := by
    intro i j ei ej hie hni hje q hqj hq
    rcases List.getElem?_eq_some_iff.mp hie with ⟨hi, hei⟩
    rcases List.getElem?_eq_some_iff.mp hje with ⟨hj, hej⟩
    rcases Nat.lt_trichotomy i j with h | h | h
    · exact h
    · exfalso
      subst h
      rw [hie] at hje
      have heq : ei = ej := Option.some.inj hje
      rw [← heq, hni] at hqj
      exact Option.noConfusion hqj
    · exfalso
      have hle := List.pairwise_iff_getElem.mp hpw j i hj hi h
      rw [hei, hej] at hle
      have hkey : sort_key ej ≤ sort_key ei := by simpa [le2] using hle
      have e1 : sort_key ej = q := by simp [sort_key, hqj]
      have e2 : sort_key ei = -1 := by simp [sort_key, hni]
      rw [e1, e2] at hkey
      linarith
  refine ⟨rfl, fun e he => by simp [sort_key, he], rfl, key, ?_⟩
  intro hlen i ei hie hni hkeep j ej q hje hqj hq
  have h := key i j ei ej hie hni hje q hqj hq
  omega

/-- Witness for C10 on `staleFirstEntries` with a window of 2 records: the
sorted order is [none, none, none, some 5], the kept window starts at index
2, the unparseable entry at index 2 precedes the parseable entry at index 3,
and keeping the former keeps the latter. -/
theorem C10_unparseable_first_excluded_witness :
    (2 : Nat) < 3 ∧ (sorted_entries staleFirstEntries).length - 2 ≤ 3 := by
  have hs : sorted_entries staleFirstEntries
      = [⟨"a", none, none, none, "", ""⟩, ⟨"b", none, none, none, "", ""⟩,
         ⟨"c", none, none, none, "", ""⟩, ⟨"d", some 5, none, none, "", ""⟩] := by
    norm_num [sorted_entries, staleFirstEntries, List.mergeSort, List.merge,
      le1, le2, sort_key]
  refine ⟨?_, ?_⟩
  · exact (C10_unparseable_first_excluded staleFirstEntries 2).2.2.2.1 2 3
      ⟨"c", none, none, none, "", ""⟩ ⟨"d", some 5, none, none, "", ""⟩
      (by rw [hs]; rfl) rfl (by rw [hs]; rfl) 5 rfl (by norm_num)
  · exact (C10_unparseable_first_excluded staleFirstEntries 2).2.2.2.2
      (by norm_num [staleFirstEntries]) 2 ⟨"c", none, none, none, "", ""⟩
      (by rw [hs]; rfl) rfl (by rw [hs]; norm_num)
      3 ⟨"d", some 5, none, none, "", ""⟩ 5
      (by rw [hs]; rfl) rfl (by norm_num)

end IIoT6
